import Mathlib

/-!
Verification development for the magic-caster-wand gesture/protocol core.

The Python source is embedded shallowly:
* byte strings become `List ℕ` (each entry a byte value, `< 256` where a claim
  needs it);
* machine floats become exact rationals `ℚ` (the numeric claims under study are
  structural, and deviations are noted where they matter);
* operations that can raise in Python (`bytearray` indexing, `struct.unpack`,
  `enum` construction, strict UTF-8 decoding, `np.min` on an empty array, list
  indexing) are modelled in `Except String` / `Option`, so that "never raises"
  is a provable statement rather than a typing accident;
* `np.linalg.norm` (an irrational Euclidean norm) is either taken as an
  explicit function parameter `nrm` in the definitions that use it, with
  theorems quantified over every norm satisfying the properties the code relies
  on, or instantiated with `ratEuclid` (exact on inputs whose squared norm is a
  perfect rational square, which all concrete inputs below are).
-/

deriving instance DecidableEq for Except

attribute [local semireducible] Rat.mul Rat.add Rat.sub Rat.inv

namespace MCW

/-! ## UTF-8 decoding model (`bytes.decode` in CPython)

`utf8DecodeStrict` models `data.decode("utf-8")`: it returns the code points
when the byte string is well-formed UTF-8 (no overlongs, no surrogates, no
code point above U+10FFFF) and `none` when CPython would raise
`UnicodeDecodeError`.  `utf8DecodeIgnore` models
`data.decode("utf-8", errors="ignore")`: ill-formed subsequences are dropped
and decoding resumes at the first byte that does not fit the started sequence.
-/

/-- Lead byte of a two-byte sequence (0xC2–0xDF). -/
def utf8Lead2 (b : ℕ) : Prop := 194 ≤ b ∧ b ≤ 223

/-- Continuation byte (0x80–0xBF). -/
def utf8Cont (b : ℕ) : Prop := 128 ≤ b ∧ b ≤ 191

/-- Admissible first continuation byte of a three-byte sequence, which depends
on the lead byte (excludes overlong encodings and surrogates). -/
def utf8Cont1Of3 (b0 c1 : ℕ) : Prop :=
  (b0 = 224 ∧ 160 ≤ c1 ∧ c1 ≤ 191) ∨
  (225 ≤ b0 ∧ b0 ≤ 239 ∧ b0 ≠ 237 ∧ utf8Cont c1) ∨
  (b0 = 237 ∧ 128 ≤ c1 ∧ c1 ≤ 159)

/-- Admissible first continuation byte of a four-byte sequence (excludes
overlongs and code points above U+10FFFF). -/
def utf8Cont1Of4 (b0 c1 : ℕ) : Prop :=
  (b0 = 240 ∧ 144 ≤ c1 ∧ c1 ≤ 191) ∨
  (241 ≤ b0 ∧ b0 ≤ 243 ∧ utf8Cont c1) ∨
  (b0 = 244 ∧ 128 ≤ c1 ∧ c1 ≤ 143)

instance (b : ℕ) : Decidable (utf8Lead2 b) := by unfold utf8Lead2; infer_instance
instance (b : ℕ) : Decidable (utf8Cont b) := by unfold utf8Cont; infer_instance
instance (b0 c1 : ℕ) : Decidable (utf8Cont1Of3 b0 c1) := by
  unfold utf8Cont1Of3; infer_instance
instance (b0 c1 : ℕ) : Decidable (utf8Cont1Of4 b0 c1) := by
  unfold utf8Cont1Of4; infer_instance

/-- Code point of a two-byte sequence. -/
def cp2 (b0 c1 : ℕ) : ℕ := (b0 - 192) * 64 + (c1 - 128)

/-- Code point of a three-byte sequence. -/
def cp3 (b0 c1 c2 : ℕ) : ℕ := (b0 - 224) * 4096 + (c1 - 128) * 64 + (c2 - 128)

/-- Code point of a four-byte sequence. -/
def cp4 (b0 c1 c2 c3 : ℕ) : ℕ :=
  (b0 - 240) * 262144 + (c1 - 128) * 4096 + (c2 - 128) * 64 + (c3 - 128)

/-- One strict decoding step: the first scalar and the remaining bytes, of a
two-byte sequence. -/
def utf8Step2 (b0 : ℕ) : List ℕ → Option (ℕ × List ℕ)
  | c1 :: r2 => if utf8Cont c1 then some (cp2 b0 c1, r2) else none
  | [] => none

/-- One strict decoding step of a three-byte sequence. -/
def utf8Step3 (b0 : ℕ) : List ℕ → Option (ℕ × List ℕ)
  | c1 :: c2 :: r3 =>
    if utf8Cont1Of3 b0 c1 ∧ utf8Cont c2 then some (cp3 b0 c1 c2, r3) else none
  | _ => none

/-- One strict decoding step of a four-byte sequence. -/
def utf8Step4 (b0 : ℕ) : List ℕ → Option (ℕ × List ℕ)
  | c1 :: c2 :: c3 :: r4 =>
    if (utf8Cont1Of4 b0 c1 ∧ utf8Cont c2) ∧ utf8Cont c3 then
      some (cp4 b0 c1 c2 c3, r4)
    else none
  | _ => none

/-- One strict decoding step: `none` models the position at which CPython
raises `UnicodeDecodeError`; on success the remainder is strictly shorter. -/
def utf8Step1 : List ℕ → Option (ℕ × List ℕ)
  | [] => none
  | b0 :: rest =>
    if b0 ≤ 127 then some (b0, rest)
    else if utf8Lead2 b0 then utf8Step2 b0 rest
    else if 224 ≤ b0 ∧ b0 ≤ 239 then utf8Step3 b0 rest
    else if 240 ≤ b0 ∧ b0 ≤ 244 then utf8Step4 b0 rest
    else none

/-- Strict UTF-8 decoding loop.  The fuel is only a structural-recursion
device: every step consumes at least one byte, so fuel equal to the input
length (as used by `utf8DecodeStrict`) is never exhausted. -/
def utf8DecodeStrictFuel : ℕ → List ℕ → Option (List ℕ)
  | _, [] => some []
  | 0, _ :: _ => none
  | fuel + 1, b0 :: rest =>
    match utf8Step1 (b0 :: rest) with
    | none => none
    | some (cp, r) => (utf8DecodeStrictFuel fuel r).map (cp :: .)

/-- Strict UTF-8 decoding to code points; `none` models `UnicodeDecodeError`. -/
def utf8DecodeStrict (bs : List ℕ) : Option (List ℕ) := utf8DecodeStrictFuel bs.length bs

/-- One lenient decoding step of a two-byte sequence: on an invalid
continuation byte the lead byte is dropped and decoding resumes at the
offending byte. -/
def utf8Step2I (b0 : ℕ) : List ℕ → Option ℕ × List ℕ
  | c1 :: r2 => if utf8Cont c1 then (some (cp2 b0 c1), r2) else (none, c1 :: r2)
  | [] => (none, [])

/-- One lenient decoding step of a three-byte sequence. -/
def utf8Step3I (b0 : ℕ) : List ℕ → Option ℕ × List ℕ
  | c1 :: c2 :: r3 =>
    if utf8Cont1Of3 b0 c1 then
      if utf8Cont c2 then (some (cp3 b0 c1 c2), r3) else (none, c2 :: r3)
    else (none, c1 :: c2 :: r3)
  | [c1] => if utf8Cont1Of3 b0 c1 then (none, []) else (none, [c1])
  | [] => (none, [])

/-- One lenient decoding step of a four-byte sequence. -/
def utf8Step4I (b0 : ℕ) : List ℕ → Option ℕ × List ℕ
  | c1 :: c2 :: c3 :: r4 =>
    if utf8Cont1Of4 b0 c1 then
      if utf8Cont c2 then
        if utf8Cont c3 then (some (cp4 b0 c1 c2 c3), r4) else (none, c3 :: r4)
      else (none, c2 :: c3 :: r4)
    else (none, c1 :: c2 :: c3 :: r4)
  | [c1, c2] =>
    if utf8Cont1Of4 b0 c1 then
      if utf8Cont c2 then (none, []) else (none, [c2])
    else (none, [c1, c2])
  | [c1] => if utf8Cont1Of4 b0 c1 then (none, []) else (none, [c1])
  | [] => (none, [])

/-- One lenient decoding step, as with `errors="ignore"`: an ill-formed
subsequence produces no code point and decoding resumes at the first byte that
does not continue the started sequence.  On nonempty input, the remainder is
strictly shorter. -/
def utf8StepIgnore : List ℕ → Option ℕ × List ℕ
  | [] => (none, [])
  | b0 :: rest =>
    if b0 ≤ 127 then (some b0, rest)
    else if utf8Lead2 b0 then utf8Step2I b0 rest
    else if 224 ≤ b0 ∧ b0 ≤ 239 then utf8Step3I b0 rest
    else if 240 ≤ b0 ∧ b0 ≤ 244 then utf8Step4I b0 rest
    else (none, rest)

/-- Lenient UTF-8 decoding loop; as in `utf8DecodeStrictFuel` the fuel is a
structural-recursion device that is never exhausted from fuel equal to the
input length. -/
def utf8DecodeIgnoreFuel : ℕ → List ℕ → List ℕ
  | _, [] => []
  | 0, _ :: _ => []
  | fuel + 1, b0 :: rest =>
    match utf8StepIgnore (b0 :: rest) with
    | (some cp, r) => cp :: utf8DecodeIgnoreFuel fuel r
    | (none, r) => utf8DecodeIgnoreFuel fuel r

/-- Lenient UTF-8 decoding: ill-formed input is skipped, as with
`errors="ignore"`. -/
def utf8DecodeIgnore (bs : List ℕ) : List ℕ := utf8DecodeIgnoreFuel bs.length bs

/-- Code points to a Lean `String` (all code points produced by the decoders
are valid `Char` scalar values). -/
def stringOfCps (cps : List ℕ) : String := String.mk (cps.map Char.ofNat)

/-- `data.decode("utf-8")`, `none` on `UnicodeDecodeError`. -/
def decodeStrict (bs : List ℕ) : Option String := (utf8DecodeStrict bs).map stringOfCps

/-- `data.decode("utf-8", errors="ignore")`. -/
def decodeIgnore (bs : List ℕ) : String := stringOfCps (utf8DecodeIgnore bs)

/-- ASCII whitespace stripped by `str.strip()` (Python additionally strips a
few rare non-ASCII space characters; no claim depends on those). -/
def isPySpace (c : Char) : Bool :=
  c == ' ' || c == '\t' || c == '\n' || c == '\r' || c == '\x0b' || c == '\x0c'

/-- `str.strip()` on a character list. -/
def pstripList (cs : List Char) : List Char :=
  ((cs.dropWhile isPySpace).reverse.dropWhile isPySpace).reverse

/-- `str.strip()`. -/
def pstrip (s : String) : String := String.mk (pstripList s.toList)

/-- `str.replace(c, "")`. -/
def removeChar (c : Char) (s : String) : String :=
  String.mk (s.toList.filter (fun x => x != c))

/-- `str.replace("_", " ")`. -/
def underscoreToSpace (s : String) : String :=
  String.mk (s.toList.map (fun x => if x = '_' then ' ' else x))

/-- `str.startswith(p)`. -/
def pyStartsWith (s p : String) : Bool := decide (s.toList.take p.toList.length = p.toList)

/-- Uppercase hex digit. -/
def hexDigitUpper (n : ℕ) : Char := "0123456789ABCDEF".toList.getD n '0'

/-- Lowercase hex digit. -/
def hexDigitLower (n : ℕ) : Char := "0123456789abcdef".toList.getD n '0'

/-- `f"\x7bb:02X\x7d"` for a byte value `b < 256`. -/
def hexByteUpper (b : ℕ) : String := String.mk [hexDigitUpper (b / 16), hexDigitUpper (b % 16)]

/-- One byte of `bytes.hex()` output. -/
def hexByteLower (b : ℕ) : String := String.mk [hexDigitLower (b / 16), hexDigitLower (b % 16)]

/-- `bytes.hex()`. -/
def bytesHex (bs : List ℕ) : String := String.join (bs.map hexByteLower)

/-- `":".join(f"\x7bb:02X\x7d" for b in bs)`. -/
def macString (bs : List ℕ) : String := String.intercalate ":" (bs.map hexByteUpper)

/-- `struct.unpack("<I", bs)[0]`; `struct.error` unless exactly 4 bytes. -/
def unpack_u32le (bs : List ℕ) : Except String ℕ :=
  match bs with
  | [a, b, c, d] => .ok (a + b * 256 + c * 65536 + d * 16777216)
  | _ => .error "struct.error: unpack requires a buffer of 4 bytes"

/-! ## Protocol layer (`protocol.py`)

Opcodes used below (decimal): `RESP_BOX_ADDRESS = 0x0A = 10`,
`RESP_PRODUCT_INFO = 0x0E = 14`, `RESP_THRESHOLD = 0xDE = 222`,
`BUTTON_EVENT = 0x11 = 17`, `SPELL_EVENT = 0x24 = 36`,
`CMD_SET_THRESHOLD = 0x70 = 112`; product-info sub-types
`SERIAL_NUMBER = 1`, `SKU = 2`, `MFG_ID = 3`, `DEVICE_ID = 4`, `EDITION = 5`,
`COMPANION_MAC = 8`, `WAND_TYPE = 9`.
-/

/-- `WandModel` enumeration. -/
inductive WandModel
  | HARRY_POTTER
  | HERMIONE_GRANGER
  | RON_WEASLEY
  | DUMBLEDORE
  | NEWT_SCAMANDER
  | WISE_UNKNOWN
  | UNKNOWN
  deriving DecidableEq

/-- `WandModel(tid)` constructor lookup; `none` models the `ValueError` that
the source catches and turns into `UNKNOWN`. -/
def wandModelOfByte (b : ℕ) : Option WandModel :=
  if b = 0 then some .HARRY_POTTER
  else if b = 1 then some .HERMIONE_GRANGER
  else if b = 2 then some .RON_WEASLEY
  else if b = 3 then some .DUMBLEDORE
  else if b = 4 then some .NEWT_SCAMANDER
  else if b = 5 then some .WISE_UNKNOWN
  else if b = 255 then some .UNKNOWN
  else none

/-- `desc_map.get(model, "Unknown")`: the literal dictionary in
`parse_response`. -/
def wandModelDescMap : WandModel → Option String
  | .HARRY_POTTER => some "Harry Potter (Adventurous)"
  | .HERMIONE_GRANGER => some "Hermione Granger (Defiant)"
  | .RON_WEASLEY => some "Ron Weasley (Heroic)"
  | .DUMBLEDORE => some "Dumbledore (Honourable)"
  | .NEWT_SCAMANDER => some "Newt Scamander (Loyal)"
  | .WISE_UNKNOWN => some "Wise"
  | .UNKNOWN => some "Unknown Model"

/-- Typed responses of `Protocol.parse_response`. -/
inductive Response
  | firmware (version : String)
  | boxAddress (mac_address : String)
  | serialNumber (number : ℕ) (hex_string : String)
  | sku (s : String)
  | manufacturerId (name : String)
  | deviceId (id_string : String)
  | edition (s : String)
  | companionAddress (mac_address : String)
  | wandType (model_id : ℕ) (model_name : WandModel) (description : String)
  | threshold (button_index min_val max_val : ℕ)
  deriving DecidableEq

/-- Typed events of `Protocol.parse_stream` (`EventIMU` is declared in the
source but never produced by `parse_stream`, so it has no constructor here). -/
inductive StreamEvent
  | button (mask : ℕ) (is_big_pressed is_top_pressed is_mid_pressed is_bot_pressed : Bool)
  | spell (name : String) (raw_bytes : List ℕ)
  deriving DecidableEq

namespace Protocol

/-- `decode("utf-8", errors="ignore").strip().replace("\x00", "")`: the
cleanup applied to SKU / manufacturer / device-id / edition strings. -/
def cleanInfoText (bs : List ℕ) : String := removeChar '\x00' (pstrip (decodeIgnore bs))

/-- The body of the `RESP_PRODUCT_INFO` branch of `parse_response`, branching
on the sub-type byte.  A sub-type branch whose inner length guard fails falls
through the whole `if` chain in the source; since the threshold branch below
requires opcode `0xDE ≠ 0x0E`, that fall-through always ends at `return None`,
modelled here as `.ok none`. -/
def parse_product_info (info_type : ℕ) (raw_val : List ℕ) : Except String (Option Response) :=
  if info_type = 1 then
    if 4 ≤ raw_val.length then
      match unpack_u32le (raw_val.take 4) with
      | .ok num => .ok (some (.serialNumber num (bytesHex raw_val)))
      | .error e => .error e
    else .ok none
  else if info_type = 9 then
    if 1 ≤ raw_val.length then
      match raw_val[0]? with
      | none => .error "IndexError: index out of range"
      | some tid =>
        let model := (wandModelOfByte tid).getD .UNKNOWN
        .ok (some (.wandType tid model ((wandModelDescMap model).getD "Unknown")))
    else .ok none
  else if info_type = 2 then .ok (some (.sku (cleanInfoText raw_val)))
  else if info_type = 3 then .ok (some (.manufacturerId (cleanInfoText raw_val)))
  else if info_type = 4 then .ok (some (.deviceId (cleanInfoText raw_val)))
  else if info_type = 5 then .ok (some (.edition (cleanInfoText raw_val)))
  else if info_type = 8 then
    if raw_val.length = 6 then .ok (some (.companionAddress (macString raw_val.reverse)))
    else .ok none
  else .ok none

/-- `parse_response` after the firmware-text attempt has failed to match:
the box-address, product-info and threshold branches, else `None`. -/
def parse_response_body (data : List ℕ) : Except String (Option Response) :=
  match data[0]? with
  | none => .error "IndexError: index out of range"
  | some opcode =>
    if opcode = 10 ∧ data.length = 7 then
      .ok (some (.boxAddress (macString (data.drop 1).reverse)))
    else if opcode = 14 ∧ 3 ≤ data.length then
      match data[1]? with
      | none => .error "IndexError: index out of range"
      | some info_type => parse_product_info info_type (data.drop 2)
    else if opcode = 222 ∧ data.length = 4 then
      match data[1]?, data[2]?, data[3]? with
      | some i, some mn, some mx => .ok (some (.threshold i mn mx))
      | _, _, _ => .error "IndexError: index out of range"
    else .ok none

/-- `Protocol.parse_response`.  The strict-decode attempt comes first in the
source (its `UnicodeDecodeError` is caught with `pass`); `data[0]` is read
under the non-emptiness guard. -/
def parse_response (data : List ℕ) : Except String (Option Response) :=
  if data.length = 0 then .ok none
  else
    match decodeStrict data with
    | some text =>
      if pyStartsWith text "MCW" then .ok (some (.firmware (pstrip text)))
      else parse_response_body data
    | none => parse_response_body data

/-- The `try` block of the `SPELL_EVENT` branch of `parse_stream`. -/
def parse_stream_spell (data : List ℕ) : Except String (Option StreamEvent) :=
  if data.length < 6 then .ok none
  else
    match data[4]? with
    | none => .error "IndexError: index out of range"
    | some spell_len =>
      let raw_name := (data.drop 5).take spell_len
      let spell_name := underscoreToSpace (removeChar '\x00' (pstrip (decodeIgnore raw_name)))
      if spell_name = "" then .ok none
      else .ok (some (.spell spell_name raw_name))

/-- `Protocol.parse_stream`.  The spell branch is wrapped in
`try ... except Exception: return None` in the source, modelled by mapping any
error of the block to `.ok none`. -/
def parse_stream (data : List ℕ) : Except String (Option StreamEvent) :=
  if data.length < 2 then .ok none
  else
    match data[0]? with
    | none => .error "IndexError: index out of range"
    | some opcode =>
      if opcode = 17 then
        match data[1]? with
        | none => .error "IndexError: index out of range"
        | some mask =>
          .ok (some (.button mask (decide (0 < mask &&& 1)) (decide (0 < mask &&& 2))
            (decide (0 < mask &&& 4)) (decide (0 < mask &&& 8))))
      else if opcode = 36 then
        match parse_stream_spell data with
        | .ok r => .ok r
        | .error _ => .ok none
      else .ok none

/-- `bytearray.extend([min_v, max_v])`: raises `ValueError` when either value
is outside `range(0, 256)`. -/
def bytearray_extend2 (acc : List ℕ) (p : ℤ × ℤ) : Except String (List ℕ) :=
  if 0 ≤ p.1 ∧ p.1 < 256 then
    if 0 ≤ p.2 ∧ p.2 < 256 then .ok (acc ++ [p.1.toNat, p.2.toNat])
    else .error "ValueError: byte must be in range(0, 256)"
  else .error "ValueError: byte must be in range(0, 256)"

/-- `Protocol.build_set_threshold`. -/
def build_set_threshold (thresholds : List (ℤ × ℤ)) : Except String (List ℕ) :=
  if thresholds.length ≠ 4 then .error "ValueError: Must provide thresholds for all 4 buttons"
  else thresholds.foldlM bytearray_extend2 [112]

end Protocol

/-! ## Protocol layer: theorems -/

@[simp]
theorem isOk_ok {α : Type} (a : α) : (Except.ok a : Except String α).isOk = true := rfl

@[simp]
theorem isOk_error {α : Type} (e : String) : (Except.error e : Except String α).isOk = false := rfl

set_option maxHeartbeats 1000000 in
theorem parse_product_info_isOk (t : ℕ) (raw : List ℕ) :
    (Protocol.parse_product_info t raw).isOk = true := by
  unfold Protocol.parse_product_info
  rcases raw with _ | ⟨a, _ | ⟨b, _ | ⟨c, _ | ⟨d, r⟩⟩⟩⟩ <;>
    split_ifs <;> simp_all [unpack_u32le]

set_option maxHeartbeats 1000000 in
theorem parse_response_body_isOk (d0 : ℕ) (rest : List ℕ) :
    (Protocol.parse_response_body (d0 :: rest)).isOk = true := by
  unfold Protocol.parse_response_body
  rcases rest with _ | ⟨d1, _ | ⟨d2, _ | ⟨d3, r⟩⟩⟩ <;>
    simp only [List.getElem?_cons_zero, List.getElem?_cons_succ, List.length_cons] <;>
    split_ifs <;> simp_all [parse_product_info_isOk]

theorem parse_response_isOk (data : List ℕ) :
    (Protocol.parse_response data).isOk = true := by
  unfold Protocol.parse_response
  rcases data with _ | ⟨d0, rest⟩
  · rfl
  · cases h : decodeStrict (d0 :: rest) with
    | none => simp [parse_response_body_isOk]
    | some text =>
      have hb := parse_response_body_isOk d0 rest
      rcases Bool.eq_false_or_eq_true (pyStartsWith text "MCW") with hm | hm <;>
        split_ifs <;> simp_all

theorem parse_stream_spell_isOk (data : List ℕ) :
    (Protocol.parse_stream_spell data).isOk = true := by
  unfold Protocol.parse_stream_spell
  rcases data with _ | ⟨d0, _ | ⟨d1, _ | ⟨d2, _ | ⟨d3, _ | ⟨d4, r⟩⟩⟩⟩⟩ <;>
    simp only [List.getElem?_cons_zero, List.getElem?_cons_succ, List.length_cons] <;>
    split_ifs <;> simp_all

theorem parse_stream_isOk (data : List ℕ) :
    (Protocol.parse_stream data).isOk = true := by
  unfold Protocol.parse_stream
  rcases data with _ | ⟨d0, _ | ⟨d1, r⟩⟩
  · rfl
  · rfl
  · simp only [List.getElem?_cons_zero, List.getElem?_cons_succ, List.length_cons]
    split_ifs <;> try simp
    cases h : Protocol.parse_stream_spell (d0 :: d1 :: r) <;> simp [h]

theorem parse_stream_short (data : List ℕ) (h : data.length < 2) :
    Protocol.parse_stream data = .ok none := by
  unfold Protocol.parse_stream
  rw [if_pos h]

theorem parse_stream_unknown (data : List ℕ) (opcode : ℕ)
    (h0 : data[0]? = some opcode) (h17 : opcode ≠ 17) (h36 : opcode ≠ 36) :
    Protocol.parse_stream data = .ok none := by
  unfold Protocol.parse_stream
  split_ifs with h2
  · rfl
  · rw [h0]
    simp [h17, h36]

/-- Claim C3: `Protocol.parse_response` and `Protocol.parse_stream` are total
over arbitrary byte sequences: on every input each returns a typed value or
`None` and never raises (every partial primitive they touch is modelled in
`Except`, and the result is always `.ok`); empty input decodes to no response,
too-short stream payloads and unknown stream opcodes decode to no event. -/
theorem claim3_parse_total (data : List ℕ) :
    (Protocol.parse_response data).isOk = true ∧
    (Protocol.parse_stream data).isOk = true ∧
    (data = [] → Protocol.parse_response data = .ok none) ∧
    (data.length < 2 → Protocol.parse_stream data = .ok none) ∧
    (∀ opcode, data[0]? = some opcode → opcode ≠ 17 → opcode ≠ 36 →
      Protocol.parse_stream data = .ok none) := by
  refine ⟨parse_response_isOk data, parse_stream_isOk data, ?_,
    parse_stream_short data, parse_stream_unknown data⟩
  rintro rfl
  rfl

/-- Witness for C3: the hypotheses are discharged at the concrete inputs `[]`
and `[99, 0]` (opcode `0x63` is not a stream opcode). -/
theorem claim3_parse_total_witness :
    Protocol.parse_response [] = .ok none ∧
    Protocol.parse_stream [] = .ok none ∧
    Protocol.parse_stream [99, 0] = .ok none :=
  ⟨(claim3_parse_total []).2.2.1 rfl,
   (claim3_parse_total []).2.2.2.1 (by decide),
   (claim3_parse_total [99, 0]).2.2.2.2 99 rfl (by decide) (by decide)⟩

/-- A successful strict decode of a byte string whose first byte is an ASCII
byte other than the letter M cannot start with the firmware prefix `MCW`. -/
theorem decodeStrict_ascii_head (b0 : ℕ) (bs : List ℕ) (text : String)
    (hb : b0 ≤ 127) (hM : Char.ofNat b0 ≠ 'M')
    (h : decodeStrict (b0 :: bs) = some text) :
    pyStartsWith text "MCW" = false := by
  rw [decodeStrict, utf8DecodeStrict] at h
  rw [show (b0 :: bs).length = bs.length + 1 from rfl] at h
  rw [utf8DecodeStrictFuel] at h
  rw [show utf8Step1 (b0 :: bs) = some (b0, bs) from by rw [utf8Step1, if_pos hb]] at h
  have h2 : Option.map stringOfCps
      (Option.map (fun x => b0 :: x) (utf8DecodeStrictFuel bs.length bs)) = some text := h
  cases hrest : utf8DecodeStrictFuel bs.length bs with
  | none => rw [hrest] at h2; exact Option.noConfusion h2
  | some cps =>
    rw [hrest] at h2
    rw [Option.map_some', Option.map_some'] at h2
    rw [Option.some.injEq] at h2
    subst h2
    simp only [pyStartsWith, stringOfCps, List.map_cons]
    show decide ((Char.ofNat b0 :: (cps.map Char.ofNat).take 2) = ['M', 'C', 'W']) = false
    simp only [decide_eq_false_iff_not]
    intro heq
    injection heq with h1 _
    exact hM h1

/-- Claim C7: a 7-byte response payload with the box-address opcode `0x0A`
decodes to the MAC string formed by reversing bytes 1..6 and rendering them as
colon-separated uppercase two-digit hex; on the concrete payload
`0A 01 02 03 04 05 06` this is `"06:05:04:03:02:01"`. -/
theorem claim7_box_address :
    Protocol.parse_response [10, 1, 2, 3, 4, 5, 6] = .ok (some (.boxAddress "06:05:04:03:02:01")) ∧
    ∀ bs : List ℕ, bs.length = 6 → (∀ b ∈ bs, b < 256) →
      Protocol.parse_response (10 :: bs) = .ok (some (.boxAddress (macString bs.reverse))) := by
  constructor
  · decide
  · intro bs h6 _
    have hbody : Protocol.parse_response_body (10 :: bs)
        = .ok (some (.boxAddress (macString bs.reverse))) := by
      unfold Protocol.parse_response_body
      simp only [List.getElem?_cons_zero]
      rw [if_pos (by simp [h6])]
      rw [show List.drop 1 (10 :: bs) = bs from rfl]
    unfold Protocol.parse_response
    rw [if_neg (by simp)]
    cases h : decodeStrict (10 :: bs) with
    | none => exact hbody
    | some text =>
      have hM := decodeStrict_ascii_head 10 bs text (by omega) (by decide) h
      show (if pyStartsWith text "MCW" = true
          then Except.ok (some (Response.firmware (pstrip text)))
          else Protocol.parse_response_body (10 :: bs)) = _
      rw [hM]
      rw [if_neg Bool.false_ne_true]
      exact hbody

/-- Witness for C7: the general byte-reversal equation applied at the concrete
payload bytes `01..06`. -/
theorem claim7_box_address_witness :
    Protocol.parse_response (10 :: [1, 2, 3, 4, 5, 6]) =
      .ok (some (.boxAddress (macString [1, 2, 3, 4, 5, 6].reverse))) :=
  claim7_box_address.2 [1, 2, 3, 4, 5, 6] (by decide) (by decide)

/-- On a stream payload carrying the spell opcode, `parse_stream` defers to
the spell block, whose errors are caught and mapped to no event. -/
theorem parse_stream_spell_opcode (d1 d2 d3 d4 : ℕ) (r : List ℕ) :
    Protocol.parse_stream (36 :: d1 :: d2 :: d3 :: d4 :: r) =
      match Protocol.parse_stream_spell (36 :: d1 :: d2 :: d3 :: d4 :: r) with
      | .ok v => .ok v
      | .error _ => .ok none := by
  unfold Protocol.parse_stream
  rw [if_neg (by simp)]
  simp only [List.getElem?_cons_zero]
  rw [if_neg (by decide)]
  simp

/-- The spell block on a payload of length at least 6: the length byte at
index 4 delimits the raw name, which is decoded leniently, stripped,
NUL-stripped and underscore-mapped; an empty cleaned name is no event. -/
theorem parse_stream_spell_long (d1 d2 d3 d4 : ℕ) (r : List ℕ) (hr : 1 ≤ r.length) :
    Protocol.parse_stream_spell (36 :: d1 :: d2 :: d3 :: d4 :: r) =
      .ok (if underscoreToSpace (removeChar '\x00' (pstrip (decodeIgnore (r.take d4)))) = ""
           then none
           else some (.spell (underscoreToSpace (removeChar '\x00'
                  (pstrip (decodeIgnore (r.take d4))))) (r.take d4))) := by
  unfold Protocol.parse_stream_spell
  rw [if_neg (by simp; omega)]
  simp only [List.getElem?_cons_succ, List.getElem?_cons_zero]
  rw [show List.drop 5 (36 :: d1 :: d2 :: d3 :: d4 :: r) = r from rfl]
  split_ifs <;> rfl

/-- Claim C6: for every stream payload whose first byte is the spell opcode
`0x24`: shorter than 6 bytes decodes to no event; otherwise the length byte at
index 4 delimits the name bytes starting at index 5, which are UTF-8-decoded
with invalid sequences dropped, whitespace-trimmed, NUL-stripped and
underscore-to-space mapped, and an empty cleaned name yields no event rather
than an error. -/
theorem claim6_spell_event (data : List ℕ) (h0 : data[0]? = some 36) :
    (data.length < 6 → Protocol.parse_stream data = .ok none) ∧
    (6 ≤ data.length →
      ∀ spell_len, data[4]? = some spell_len →
        Protocol.parse_stream data =
          .ok (if underscoreToSpace (removeChar '\x00'
                  (pstrip (decodeIgnore ((data.drop 5).take spell_len)))) = ""
               then none
               else some (.spell (underscoreToSpace (removeChar '\x00'
                  (pstrip (decodeIgnore ((data.drop 5).take spell_len)))))
                  ((data.drop 5).take spell_len)))) := by
  rcases data with _ | ⟨d0, _ | ⟨d1, _ | ⟨d2, _ | ⟨d3, _ | ⟨d4, r⟩⟩⟩⟩⟩
  · simp at h0
  all_goals simp only [List.getElem?_cons_zero, Option.some.injEq] at h0
  all_goals subst h0
  · exact ⟨fun _ => rfl, fun h => absurd h (by decide)⟩
  · exact ⟨fun _ => rfl, fun h => absurd h (by simp)⟩
  · exact ⟨fun _ => rfl, fun h => absurd h (by simp)⟩
  · exact ⟨fun _ => rfl, fun h => absurd h (by simp)⟩
  · constructor
    · intro hlen
      have hr0 : r = [] := List.length_eq_zero.mp (by simp at hlen; omega)
      subst hr0
      rfl
    · intro hlen spell_len h4
      have h4e : d4 = spell_len := by simpa using h4
      subst h4e
      have hr : 1 ≤ r.length := by simp at hlen; omega
      rw [parse_stream_spell_opcode, parse_stream_spell_long d1 d2 d3 d4 r hr]
      rfl

/-- Witness for C6: a spell event whose name bytes decode to `Lumos` (with a
trailing NUL), and a 5-byte payload that decodes to no event. -/
theorem claim6_spell_event_witness :
    Protocol.parse_stream [36, 0, 0, 0, 6, 76, 117, 109, 111, 115, 0] =
      .ok (some (.spell "Lumos" [76, 117, 109, 111, 115, 0])) ∧
    Protocol.parse_stream [36, 0, 0, 0, 9] = .ok none := by
  have h1 := (claim6_spell_event [36, 0, 0, 0, 6, 76, 117, 109, 111, 115, 0] rfl).2
    (by decide) 6 rfl
  have h2 := (claim6_spell_event [36, 0, 0, 0, 9] rfl).1 (by decide)
  refine ⟨?_, h2⟩
  rw [h1]
  decide

/-- One `bytearray.extend` step of `build_set_threshold`, as an equation on
the monadic fold. -/
theorem foldlM_extend2_cons (acc : List ℕ) (p : ℤ × ℤ) (rest : List (ℤ × ℤ)) :
    List.foldlM Protocol.bytearray_extend2 acc (p :: rest) =
      if 0 ≤ p.1 ∧ p.1 < 256 then
        if 0 ≤ p.2 ∧ p.2 < 256 then
          List.foldlM Protocol.bytearray_extend2 (acc ++ [p.1.toNat, p.2.toNat]) rest
        else Except.error "ValueError: byte must be in range(0, 256)"
      else Except.error "ValueError: byte must be in range(0, 256)" := by
  rw [show List.foldlM Protocol.bytearray_extend2 acc (p :: rest)
      = (Protocol.bytearray_extend2 acc p >>= fun acc2 =>
          List.foldlM Protocol.bytearray_extend2 acc2 rest) from rfl]
  unfold Protocol.bytearray_extend2
  split_ifs <;> rfl

/-- The byte-building fold of `build_set_threshold` succeeds exactly when
every supplied value lies in `range(0, 256)`. -/
theorem foldlM_extend2_isOk (ts : List (ℤ × ℤ)) (acc : List ℕ) :
    (List.foldlM Protocol.bytearray_extend2 acc ts).isOk = true ↔
      ∀ p ∈ ts, 0 ≤ p.1 ∧ p.1 < 256 ∧ 0 ≤ p.2 ∧ p.2 < 256 := by
  induction ts generalizing acc with
  | nil => simp [List.foldlM]; rfl
  | cons p rest ih =>
    rw [foldlM_extend2_cons]
    split_ifs with h1 h2
    · rw [ih]
      simp [List.forall_mem_cons, h1.1, h1.2, h2.1, h2.2]
    · simp only [isOk_error, false_iff, List.forall_mem_cons]
      tauto
    · simp only [isOk_error, false_iff, List.forall_mem_cons]
      tauto

/-- Claim C8, amended: `build_set_threshold` succeeds if and only if exactly
four pairs are supplied *and* every value fits in a byte (`bytearray.extend`
raises `ValueError` on out-of-range values even when four pairs are given);
with four in-range pairs it returns the 9-byte packet `0x70` followed by
min1, max1, min2, max2, min3, max3, min4, max4 in order. -/
theorem claim8_set_threshold :
    (∀ ts : List (ℤ × ℤ),
      (Protocol.build_set_threshold ts).isOk = true ↔
        (ts.length = 4 ∧ ∀ p ∈ ts, 0 ≤ p.1 ∧ p.1 < 256 ∧ 0 ≤ p.2 ∧ p.2 < 256)) ∧
    (∀ p1 p2 p3 p4 : ℤ × ℤ,
      (0 ≤ p1.1 ∧ p1.1 < 256 ∧ 0 ≤ p1.2 ∧ p1.2 < 256) →
      (0 ≤ p2.1 ∧ p2.1 < 256 ∧ 0 ≤ p2.2 ∧ p2.2 < 256) →
      (0 ≤ p3.1 ∧ p3.1 < 256 ∧ 0 ≤ p3.2 ∧ p3.2 < 256) →
      (0 ≤ p4.1 ∧ p4.1 < 256 ∧ 0 ≤ p4.2 ∧ p4.2 < 256) →
      Protocol.build_set_threshold [p1, p2, p3, p4] =
        .ok [112, p1.1.toNat, p1.2.toNat, p2.1.toNat, p2.2.toNat,
             p3.1.toNat, p3.2.toNat, p4.1.toNat, p4.2.toNat]) := by
  constructor
  · intro ts
    unfold Protocol.build_set_threshold
    split_ifs with hl
    · simp [hl]
    · rw [foldlM_extend2_isOk]
      simp [not_not.mp hl]
  · intro p1 p2 p3 p4 h1 h2 h3 h4
    unfold Protocol.build_set_threshold
    rw [if_neg (by simp)]
    rw [foldlM_extend2_cons, if_pos ⟨h1.1, h1.2.1⟩, if_pos ⟨h1.2.2.1, h1.2.2.2⟩]
    rw [foldlM_extend2_cons, if_pos ⟨h2.1, h2.2.1⟩, if_pos ⟨h2.2.2.1, h2.2.2.2⟩]
    rw [foldlM_extend2_cons, if_pos ⟨h3.1, h3.2.1⟩, if_pos ⟨h3.2.2.1, h3.2.2.2⟩]
    rw [foldlM_extend2_cons, if_pos ⟨h4.1, h4.2.1⟩, if_pos ⟨h4.2.2.1, h4.2.2.2⟩]
    rfl

/-- Witness for C8: four in-range pairs produce the 9-byte packet. -/
theorem claim8_set_threshold_witness :
    Protocol.build_set_threshold [(1, 2), (3, 4), (5, 6), (7, 8)] =
      .ok [112, 1, 2, 3, 4, 5, 6, 7, 8] :=
  claim8_set_threshold.2 (1, 2) (3, 4) (5, 6) (7, 8)
    (by decide) (by decide) (by decide) (by decide)

/-- Counterexample to C8 as stated: a list of exactly four pairs on which
`build_set_threshold` nevertheless raises, because the value 256 does not fit
a byte — so "errors iff not exactly four pairs" is false. -/
theorem claim8_counterexample :
    ([((256 : ℤ), (0 : ℤ)), (0, 0), (0, 0), (0, 0)] : List (ℤ × ℤ)).length = 4 ∧
    (Protocol.build_set_threshold [(256, 0), (0, 0), (0, 0), (0, 0)]).isOk = false := by
  decide

/-! ## Gesture pipeline (`shape_spell_detector.py`, `gesture_core.py`)

Floats become exact rationals.  `np.linalg.norm` is irrational, so the
definitions that use it take the norm as an explicit parameter `nrm`; theorems
quantify over every `nrm` with the properties the code relies on
(nonnegativity, positive homogeneity along segments), which the Euclidean norm
has.  Concrete evaluations instantiate `nrm` with `ratEuclid`, which agrees
with the Euclidean norm on every vector whose squared norm is a perfect
rational square — true of all axis-aligned concrete inputs used below — or
with the taxicab norm `l1norm`, which satisfies the quantified hypotheses
outright.
-/

/-- 2-D point with exact rational coordinates. -/
abbrev Pt := ℚ × ℚ

/-- Pointwise difference, `p - q` on numpy arrays. -/
def psub (p q : Pt) : Pt := (p.1 - q.1, p.2 - q.2)

/-- Scalar multiple of a point. -/
def pscale (t : ℚ) (p : Pt) : Pt := (t * p.1, t * p.2)

/-- Fuel-bounded upward search for the floor square root: the largest `r`
reachable from the accumulator with `r * r ≤ n` (kernel-computable). -/
def isqrtAux (n : ℕ) : ℕ → ℕ → ℕ
  | 0, r => r
  | fuel + 1, r => if (r + 1) * (r + 1) ≤ n then isqrtAux n fuel (r + 1) else r

/-- Floor square root of a natural number. -/
def isqrt (n : ℕ) : ℕ := isqrtAux n n 0

/-- Square root of the squared norm, exact — and equal to `np.linalg.norm` —
whenever the squared norm is a perfect rational square, as it is for every
axis-aligned or Pythagorean segment evaluated below. -/
def ratEuclid (v : Pt) : ℚ :=
  (isqrt (v.1 ^ 2 + v.2 ^ 2).num.toNat : ℚ) / (isqrt (v.1 ^ 2 + v.2 ^ 2).den : ℚ)

/-- Taxicab norm: computable, nonnegative and positively homogeneous, used to
discharge the hypotheses of norm-generic theorems at concrete inputs. -/
def l1norm (v : Pt) : ℚ := |v.1| + |v.2|

namespace ShapeSpellDetector

/-- Total polyline length: `sum(np.linalg.norm(points[i+1] - points[i]))`. -/
def path_length (nrm : Pt → ℚ) (points : List Pt) : ℚ :=
  (points.zip points.tail).foldl (fun acc pq => acc + nrm (psub pq.2 pq.1)) 0

/-- The `while i < len(src_pts)` loop of `_resample`.  The unprocessed window
of `src_pts` is carried explicitly (`pt1 :: pt2 :: rest` is
`src_pts[i-1], src_pts[i], ...`): whenever the accumulated distance `D` plus
the segment length reaches the interval `I`, the interpolated point `q` is
emitted and becomes the next segment start, exactly as `src_pts.insert(i, q)`
followed by `i += 1` does in the source.  The fuel bounds the number of loop
iterations, which Python does not bound; `none` means it ran out. -/
def resample_loop (nrm : Pt → ℚ) (I : ℚ) :
    ℕ → List Pt → ℚ → List Pt → Option (List Pt)
  | 0, _, _, _ => none
  | _ + 1, [], _, acc => some acc
  | _ + 1, [_], _, acc => some acc
  | fuel + 1, pt1 :: pt2 :: rest, D, acc =>
    let d := nrm (psub pt2 pt1)
    if I ≤ D + d then
      let t := (I - D) / d
      let q : Pt := (pt1.1 + t * (pt2.1 - pt1.1), pt1.2 + t * (pt2.2 - pt1.2))
      resample_loop nrm I fuel (q :: pt2 :: rest) 0 (acc ++ [q])
    else
      resample_loop nrm I fuel (pt2 :: rest) (D + d) acc

/-- `ShapeSpellDetector._resample`: resample a path to `n` arc-length
equidistant points.  When the total length is zero (`I == 0`) the input is
returned unchanged — whatever its length.  Padding appends `src_pts[-1]`,
which equals the last input point because `insert(i, q)` with `i < len` never
changes the final element.  All call sites pass `n = 50` (for `n = 1` Python
would raise `ZeroDivisionError` where `ℚ` yields `I = 0`; no claim touches
that case).  `none` = the loop fuel ran out. -/
def _resample (nrm : Pt → ℚ) (fuel : ℕ) (points : List Pt) (n : ℕ) : Option (List Pt) :=
  let I := path_length nrm points / ((n : ℚ) - 1)
  if I = 0 then some points
  else
    match points with
    | [] => none
    | p0 :: _ =>
      (resample_loop nrm I fuel points 0 [p0]).map (fun new_points =>
        (new_points ++ List.replicate (n - new_points.length) (points.getLastD p0)).take n)

/-- Ghost instrumentation of `resample_loop`: it takes the same branches, and
records for each emitted point the arc distance walked since the previous
emission — the accumulated `D` plus the length of the final partial segment
`pt1 → q`. -/
def resample_gaps (nrm : Pt → ℚ) (I : ℚ) :
    ℕ → List Pt → ℚ → List ℚ → Option (List ℚ)
  | 0, _, _, _ => none
  | _ + 1, [], _, accg => some accg
  | _ + 1, [_], _, accg => some accg
  | fuel + 1, pt1 :: pt2 :: rest, D, accg =>
    let d := nrm (psub pt2 pt1)
    if I ≤ D + d then
      let t := (I - D) / d
      let q : Pt := (pt1.1 + t * (pt2.1 - pt1.1), pt1.2 + t * (pt2.2 - pt1.2))
      resample_gaps nrm I fuel (q :: pt2 :: rest) 0 (accg ++ [D + nrm (psub q pt1)])
    else
      resample_gaps nrm I fuel (pt2 :: rest) (D + d) accg

/-- `np.min` over a list seeded at its head: the true minimum on nonempty
input.  `np.min` of an empty array raises; every call site of `_normalize`
passes 50 points, and the raising call in `_recognize_spell` is modelled
there explicitly. -/
def amin (l : List ℚ) : ℚ := l.foldl min (l.headD 0)

/-- `np.max` over a list seeded at its head. -/
def amax (l : List ℚ) : ℚ := l.foldl max (l.headD 0)

/-- `ShapeSpellDetector._normalize`: translate to the bounding-box minimum and
scale each axis by its extent floored at `1e-5 = 1/100000`. -/
def _normalize (points : List Pt) : List Pt :=
  let min_x := amin (points.map Prod.fst)
  let min_y := amin (points.map Prod.snd)
  let max_x := amax (points.map Prod.fst)
  let max_y := amax (points.map Prod.snd)
  let size_x := max (max_x - min_x) (1 / 100000)
  let size_y := max (max_y - min_y) (1 / 100000)
  points.map (fun p => ((p.1 - min_x) / size_x, (p.2 - min_y) / size_y))

/-- The shared preprocessing of the template matcher (`predict_shape` lines
"resample to 50" then "normalize"). -/
def shape_preprocess (nrm : Pt → ℚ) (fuel : ℕ) (positions : List Pt) : Option (List Pt) :=
  (_resample nrm fuel positions 50).map _normalize

/-- `ShapeSpellDetector.predict_shape`.  The running best score starts at
`-inf`, modelled by `⊥ : WithBot ℚ`; templates whose length is not 50 are
skipped; the final score is floored at 0.  `none` = resampling fuel ran out. -/
def predict_shape (nrm : Pt → ℚ) (fuel : ℕ) (templates : List (String × List Pt))
    (positions : List Pt) : Option (String × ℚ) :=
  if positions.length < 10 then some ("Too Short", 0)
  else
    match _resample nrm fuel positions 50 with
    | none => none
    | some resampled =>
      let points := _normalize resampled
      let best := templates.foldl
        (fun (best : String × WithBot ℚ) t =>
          if t.2.length ≠ 50 then best
          else
            let dists := (points.zip t.2).map (fun pq => nrm (psub pq.1 pq.2))
            let score : ℚ := 1 - dists.foldl (fun a x => a + x) 0 / (dists.length : ℚ)
            if best.2 < (score : WithBot ℚ) then (t.1, (score : WithBot ℚ)) else best)
        ("Unknown", ⊥)
      some (best.1, max 0 (best.2.unbot' 0))

/-- `ShapeSpellDetector.detect`: prediction plus the caller-supplied
confidence threshold.  Outer `none` = prediction did not complete (fuel);
inner `none` = nothing recognised with sufficient confidence. -/
def detect (nrm : Pt → ℚ) (fuel : ℕ) (templates : List (String × List Pt))
    (positions : List Pt) (confidence_threshold : ℚ) : Option (Option String) :=
  match predict_shape nrm fuel templates positions with
  | none => none
  | some ls =>
    if ls.2 < confidence_threshold then some none
    else some (some ls.1)

end ShapeSpellDetector

namespace GestureCore

/-- `gesture_core.normalize`: textually the same computation as
`ShapeSpellDetector._normalize`. -/
def normalize (points : List Pt) : List Pt :=
  let min_x := ShapeSpellDetector.amin (points.map Prod.fst)
  let min_y := ShapeSpellDetector.amin (points.map Prod.snd)
  let max_x := ShapeSpellDetector.amax (points.map Prod.fst)
  let max_y := ShapeSpellDetector.amax (points.map Prod.snd)
  let size_x := max (max_x - min_x) (1 / 100000)
  let size_y := max (max_y - min_y) (1 / 100000)
  points.map (fun p => ((p.1 - min_x) / size_x, (p.2 - min_y) / size_y))

end GestureCore

/-! ## Spell tracker (`spell_tracker.py`) -/

namespace SpellTracker

/-- `SpellTracker._MAX_POINTS`. -/
def MAX_POINTS : ℕ := 8192

/-- `SPELL_NAMES`. -/
def SPELL_NAMES : List String :=
  ["The_Force_Spell", "Colloportus", "Colloshoo", "The_Hour_Reversal_Reversal_Charm",
   "Evanesco", "Herbivicus", "Orchideous", "Brachiabindo", "Meteolojinx", "Riddikulus",
   "Silencio", "Immobulus", "Confringo", "Petrificus_Totalus", "Flipendo",
   "The_Cheering_Charm", "Salvio_Hexia", "Pestis_Incendium", "Alohomora", "Protego",
   "Langlock", "Mucus_Ad_Nauseum", "Flagrate", "Glacius", "Finite", "Anteoculatia",
   "Expelliarmus", "Expecto_Patronum", "Descendo", "Depulso", "Reducto", "Colovaria",
   "Aberto", "Confundo", "Densaugeo", "The_Stretching_Jinx", "Entomorphis",
   "The_Hair_Thickening_Growing_Charm", "Bombarda", "Finestra", "The_Sleeping_Charm",
   "Rictusempra", "Piertotum_Locomotor", "Expulso", "Impedimenta", "Ascendio",
   "Incarcerous", "Ventus", "Revelio", "Accio", "Melefors", "Scourgify",
   "Wingardium_Leviosa", "Nox", "Stupefy", "Spongify", "Lumos", "Appare_Vestigium",
   "Verdimillious", "Fulgari", "Reparo", "Locomotor", "Quietus", "Everte_Statum",
   "Incendio", "Aguamenti", "Sonorus", "Cantis", "Arania_Exumai", "Calvorio",
   "The_Hour_Reversal_Charm", "Vermillious", "The_Pepper-Breath_Hex"]

/-- The downsample-and-normalize step inside `SpellTracker._recognize_spell`:
`np.min` over the empty buffered slice raises `ValueError` (modelled as
`.error`); otherwise 50 samples are taken at index stride `count / 50`
(truncating the running position, clamped to the last index) and both
coordinates are normalised by the larger of the two bounding-box extents.
With a zero extent Python produces IEEE NaNs (float division by zero warns
rather than raises); in `ℚ` the division yields 0 — no claim touches that
case. -/
def downsample_normalize (points : List Pt) : Except String (List Pt) :=
  match points with
  | [] => .error "ValueError: zero-size array to reduction operation minimum which has no identity"
  | _ :: _ =>
    let count := points.length
    let min_x := ShapeSpellDetector.amin (points.map Prod.fst)
    let max_x := ShapeSpellDetector.amax (points.map Prod.fst)
    let min_y := ShapeSpellDetector.amin (points.map Prod.snd)
    let max_y := ShapeSpellDetector.amax (points.map Prod.snd)
    let range_val := max (max_x - min_x) (max_y - min_y)
    let stride : ℚ := (count : ℚ) / 50
    .ok ((List.range 50).map (fun (i : ℕ) =>
      let position := stride * (i : ℚ)
      let idx0 := (Rat.floor position).toNat
      let sample_idx := if count ≤ idx0 then count - 1 else idx0
      let p := points.getD sample_idx (0, 0)
      ((p.1 - min_x) / range_val, (p.2 - min_y) / range_val)))

/-- `np.argmax` helper: index of the first maximal entry. -/
def argmaxAux : List ℚ → ℕ → ℕ → ℚ → ℕ
  | [], _, bi, _ => bi
  | x :: xs, i, bi, bv =>
    if bv < x then argmaxAux xs (i + 1) i x else argmaxAux xs (i + 1) bi bv

/-- `np.argmax` (the empty case raises and is guarded at the call site). -/
def argmax : List ℚ → ℕ
  | [] => 0
  | x :: xs => argmaxAux xs 1 0 x

/-- `SpellTracker._recognize_spell`.  The TFLite interpreter round trip
(`set_tensor`, `invoke`, `get_tensor` — an external binary model, not part of
this repository) is abstracted as a function `infer` from the 50 downsampled
points to the output probability vector; theorems quantify over it.
`np.argmax` of an empty vector and out-of-range indexing into `SPELL_NAMES`
raise and are modelled as errors. -/
def _recognize_spell (infer : List Pt → List ℚ) (points : List Pt) :
    Except String (Option String) := do
  let downsampled ← downsample_normalize points
  let spells := infer downsampled
  match spells with
  | [] => .error "ValueError: attempt to get argmax of an empty sequence"
  | _ :: _ =>
    let predicted_index := argmax spells
    let confidence := spells.getD predicted_index 0
    if (9 : ℚ) / 10 ≤ confidence then
      match SPELL_NAMES[predicted_index]? with
      | some name => .ok (some name)
      | none => .error "IndexError: list index out of range"
    else .ok none

/-- One IMU sample (six float fields in the source). -/
structure Imu where
  accel_x : ℚ
  accel_y : ℚ
  accel_z : ℚ
  gyro_x : ℚ
  gyro_y : ℚ
  gyro_z : ℚ

/-- `SpellTracker` state.  The numeric pose pipeline — the Madgwick filter
from the external `ahrs` package together with `_rotate_vector`,
`_build_plane_axes`, the gravity low-pass and the exponential smoothing, all
irrational vector arithmetic — is abstracted into a value of an arbitrary
type `P` advanced by caller-supplied functions; the theorems below quantify
over that abstraction and hence hold for the real pipeline in particular.
`refSet` models whether `_ref_forward` is not `None`, and `points` models the
written prefix `_points[:_points_count]` of the preallocated buffer. -/
structure State (P : Type) where
  active : Bool
  refSet : Bool
  pose : P
  points : List Pt

/-- `SpellTracker.start`: reset the filter and pose state, clear the buffer
(`_points_count = 0`), clear the reference frame, and activate. -/
def start {P : Type} (reset : P → P) (s : State P) : State P :=
  { active := true, refSet := false, pose := reset s.pose, points := [] }

/-- `SpellTracker.update`: `None` when inactive; the first sample of a session
only establishes the reference frame and returns `Point(0, 0)` without
buffering it; each later sample produces the smoothed point through the
abstract pose step and appends it only while the buffer holds fewer than
`_MAX_POINTS` points (the source re-tests `self._active`, kept here). -/
def update {P : Type} (initRef : P → Imu → P) (step : P → Imu → P × Pt)
    (s : State P) (imu : Imu) : State P × Option Pt :=
  if s.active = false then (s, none)
  else if s.refSet = false then
    ({ s with refSet := true, pose := initRef s.pose imu }, some (0, 0))
  else
    let sp := step s.pose imu
    let s1 := { s with pose := sp.1 }
    if s1.active = true ∧ s1.points.length < MAX_POINTS then
      ({ s1 with points := s1.points ++ [sp.2] }, some sp.2)
    else (s1, some sp.2)

/-- `SpellTracker.stop`: deactivate and classify the frozen buffer. -/
def stop {P : Type} (infer : List Pt → List ℚ) (s : State P) :
    State P × Except String (Option String) :=
  ({ s with active := false }, _recognize_spell infer s.points)

end SpellTracker

/-! ## Gesture pipeline: theorems -/

theorem foldl_min_le_init (l : List ℚ) (a : ℚ) : l.foldl min a ≤ a := by
  induction l generalizing a with
  | nil => exact le_refl a
  | cons b t ih => exact le_trans (ih (min a b)) (min_le_left a b)

theorem foldl_min_le_mem (l : List ℚ) (a x : ℚ) (hx : x ∈ l) : l.foldl min a ≤ x := by
  induction l generalizing a with
  | nil => cases hx
  | cons b t ih =>
    rcases List.mem_cons.mp hx with rfl | hx2
    · exact le_trans (foldl_min_le_init t (min a x)) (min_le_right a x)
    · exact ih (min a b) hx2

/-- `np.min` of a nonempty array bounds every entry from below. -/
theorem amin_le (l : List ℚ) (x : ℚ) (hx : x ∈ l) : ShapeSpellDetector.amin l ≤ x := by
  rcases l with _ | ⟨h, t⟩
  · cases hx
  · show List.foldl min ((h :: t).headD 0) (h :: t) ≤ x
    rcases List.mem_cons.mp hx with rfl | hx2
    · exact le_trans (foldl_min_le_init _ _) (by simp)
    · exact foldl_min_le_mem t (min h h) x hx2

theorem init_le_foldl_max (l : List ℚ) (a : ℚ) : a ≤ l.foldl max a := by
  induction l generalizing a with
  | nil => exact le_refl a
  | cons b t ih => exact le_trans (le_max_left a b) (ih (max a b))

theorem mem_le_foldl_max (l : List ℚ) (a x : ℚ) (hx : x ∈ l) : x ≤ l.foldl max a := by
  induction l generalizing a with
  | nil => cases hx
  | cons b t ih =>
    rcases List.mem_cons.mp hx with rfl | hx2
    · exact le_trans (le_max_right a x) (init_le_foldl_max t (max a x))
    · exact ih (max a b) hx2

/-- `np.max` of a nonempty array bounds every entry from above. -/
theorem le_amax (l : List ℚ) (x : ℚ) (hx : x ∈ l) : x ≤ ShapeSpellDetector.amax l := by
  rcases l with _ | ⟨h, t⟩
  · cases hx
  · show x ≤ List.foldl max ((h :: t).headD 0) (h :: t)
    rcases List.mem_cons.mp hx with rfl | hx2
    · exact le_trans (by simp) (init_le_foldl_max t _)
    · exact mem_le_foldl_max t _ x hx2

/-- Claim C5: on every nonempty input, `_normalize` maps each coordinate into
`[0, 1]`; each axis divisor is the bounding-box extent floored at `1e-5` and
hence never below the epsilon floor, also for degenerate zero-extent inputs;
and `gesture_core.normalize` is the same function. -/
theorem claim5_normalize (points : List Pt) (_hne : points ≠ []) :
    (∀ p ∈ ShapeSpellDetector._normalize points,
       0 ≤ p.1 ∧ p.1 ≤ 1 ∧ 0 ≤ p.2 ∧ p.2 ≤ 1) ∧
    ((1 : ℚ) / 100000 ≤ max (ShapeSpellDetector.amax (points.map Prod.fst)
        - ShapeSpellDetector.amin (points.map Prod.fst)) (1 / 100000)) ∧
    ((1 : ℚ) / 100000 ≤ max (ShapeSpellDetector.amax (points.map Prod.snd)
        - ShapeSpellDetector.amin (points.map Prod.snd)) (1 / 100000)) ∧
    GestureCore.normalize points = ShapeSpellDetector._normalize points := by
  refine ⟨?_, le_max_right _ _, le_max_right _ _, rfl⟩
  intro p hp
  unfold ShapeSpellDetector._normalize at hp
  simp only [List.mem_map] at hp
  obtain ⟨q, hq, rfl⟩ := hp
  have hx1 : ShapeSpellDetector.amin (points.map Prod.fst) ≤ q.1 :=
    amin_le _ _ (List.mem_map.mpr ⟨q, hq, rfl⟩)
  have hx2 : q.1 ≤ ShapeSpellDetector.amax (points.map Prod.fst) :=
    le_amax _ _ (List.mem_map.mpr ⟨q, hq, rfl⟩)
  have hy1 : ShapeSpellDetector.amin (points.map Prod.snd) ≤ q.2 :=
    amin_le _ _ (List.mem_map.mpr ⟨q, hq, rfl⟩)
  have hy2 : q.2 ≤ ShapeSpellDetector.amax (points.map Prod.snd) :=
    le_amax _ _ (List.mem_map.mpr ⟨q, hq, rfl⟩)
  have hsx : (0 : ℚ) < max (ShapeSpellDetector.amax (points.map Prod.fst)
      - ShapeSpellDetector.amin (points.map Prod.fst)) (1 / 100000) :=
    lt_of_lt_of_le (by norm_num) (le_max_right _ _)
  have hsy : (0 : ℚ) < max (ShapeSpellDetector.amax (points.map Prod.snd)
      - ShapeSpellDetector.amin (points.map Prod.snd)) (1 / 100000) :=
    lt_of_lt_of_le (by norm_num) (le_max_right _ _)
  refine ⟨div_nonneg (by linarith) (le_of_lt hsx), ?_,
    div_nonneg (by linarith) (le_of_lt hsy), ?_⟩
  · exact (div_le_one hsx).mpr (le_trans (by linarith) (le_max_left _ _))
  · exact (div_le_one hsy).mpr (le_trans (by linarith) (le_max_left _ _))

/-- Witness for C5 at a concrete nonempty path: the normalised image of the
corner point `(2, 1)` is `(1, 1)`, which lies in the unit box. -/
theorem claim5_normalize_witness :
    ((1 : ℚ), (1 : ℚ)) ∈ ShapeSpellDetector._normalize [((0 : ℚ), (0 : ℚ)), (2, 1)] ∧
    (0 ≤ ((1 : ℚ), (1 : ℚ)).1 ∧ ((1 : ℚ), (1 : ℚ)).1 ≤ 1 ∧
     0 ≤ ((1 : ℚ), (1 : ℚ)).2 ∧ ((1 : ℚ), (1 : ℚ)).2 ≤ 1) := by
  have hmem : ((1 : ℚ), (1 : ℚ)) ∈ ShapeSpellDetector._normalize
      [((0 : ℚ), (0 : ℚ)), (2, 1)] := by decide
  exact ⟨hmem, (claim5_normalize [(0, 0), (2, 1)] (by decide)).1 _ hmem⟩

/-- Claim C10: a path with fewer than 10 points short-circuits
`predict_shape` to the sentinel `("Too Short", 0.0)` before any template is
compared (the result does not depend on the templates or the norm); `detect`
therefore yields no detection whenever the threshold is positive, but reports
the sentinel label as if it were a recognised shape whenever the threshold is
at most 0. -/
theorem claim10_too_short (nrm : Pt → ℚ) (fuel : ℕ)
    (templates : List (String × List Pt)) (positions : List Pt) (threshold : ℚ)
    (hshort : positions.length < 10) :
    ShapeSpellDetector.predict_shape nrm fuel templates positions = some ("Too Short", 0) ∧
    (0 < threshold →
      ShapeSpellDetector.detect nrm fuel templates positions threshold = some none) ∧
    (threshold ≤ 0 →
      ShapeSpellDetector.detect nrm fuel templates positions threshold
        = some (some "Too Short")) := by
  have hp : ShapeSpellDetector.predict_shape nrm fuel templates positions
      = some ("Too Short", 0) := by
    unfold ShapeSpellDetector.predict_shape
    rw [if_pos hshort]
  refine ⟨hp, ?_, ?_⟩
  · intro ht
    unfold ShapeSpellDetector.detect
    rw [hp]
    show (if (0 : ℚ) < threshold then some none else some (some "Too Short")) = some none
    rw [if_pos ht]
  · intro ht
    unfold ShapeSpellDetector.detect
    rw [hp]
    show (if (0 : ℚ) < threshold then some none else some (some "Too Short"))
      = some (some "Too Short")
    rw [if_neg (not_lt.mpr ht)]

/-- Witness for C10: a one-point path under thresholds 1 and 0. -/
theorem claim10_too_short_witness :
    ShapeSpellDetector.predict_shape l1norm 0 [] [((0 : ℚ), (0 : ℚ))] = some ("Too Short", 0) ∧
    ShapeSpellDetector.detect l1norm 0 [] [((0 : ℚ), (0 : ℚ))] 1 = some none ∧
    ShapeSpellDetector.detect l1norm 0 [] [((0 : ℚ), (0 : ℚ))] 0 = some (some "Too Short") :=
  ⟨(claim10_too_short l1norm 0 [] [(0, 0)] 1 (by decide)).1,
   (claim10_too_short l1norm 0 [] [(0, 0)] 1 (by decide)).2.1 (by norm_num),
   (claim10_too_short l1norm 0 [] [(0, 0)] 0 (by decide)).2.2 (le_refl 0)⟩

/-- Claim C2 (code bug): `stop()` right after `start()` — an empty buffered
path — does not return a classification outcome: `_recognize_spell` computes
`np.min` over the zero-length slice `_points[:0]`, which raises `ValueError`,
for every possible reset function and inference backend.  The claim (and the
spec's sequence test) requires a label or `None`, never an exception. -/
theorem claim2_stop_empty_buffer :
    ∀ (P : Type) (reset : P → P) (infer : List Pt → List ℚ) (s : SpellTracker.State P),
      ((SpellTracker.stop infer (SpellTracker.start reset s)).2 =
        .error "ValueError: zero-size array to reduction operation minimum which has no identity") ∧
      ((SpellTracker.stop infer (SpellTracker.start reset s)).2.isOk = false) :=
  fun _ _ _ _ => ⟨rfl, rfl⟩

theorem update_length_le {P : Type} (initRef : P → SpellTracker.Imu → P)
    (step : P → SpellTracker.Imu → P × Pt) (s : SpellTracker.State P)
    (imu : SpellTracker.Imu) (h : s.points.length ≤ SpellTracker.MAX_POINTS) :
    ((SpellTracker.update initRef step s imu).1).points.length ≤ SpellTracker.MAX_POINTS := by
  simp only [SpellTracker.update]
  split_ifs with h1 h2 h3
  · exact h
  · exact h
  · simp only [List.length_append, List.length_singleton]
    omega
  · exact h

theorem foldl_update_le {P : Type} (initRef : P → SpellTracker.Imu → P)
    (step : P → SpellTracker.Imu → P × Pt) :
    ∀ (imus : List SpellTracker.Imu) (s : SpellTracker.State P),
      s.points.length ≤ SpellTracker.MAX_POINTS →
      (imus.foldl (fun st imu => (SpellTracker.update initRef step st imu).1) s).points.length
        ≤ SpellTracker.MAX_POINTS := by
  intro imus
  induction imus with
  | nil => intro s h; exact h
  | cons imu rest ih =>
    intro s h
    exact ih _ (update_length_le initRef step s imu h)

/-- Claim C9: after `start()`, the buffered point count never exceeds
`_MAX_POINTS = 8192` over any sequence of `update()` calls, for every
abstracted pose pipeline; and at capacity a further update appends nothing —
the stored points are unchanged — while still returning the computed smoothed
point. -/
theorem claim9_buffer_cap :
    (∀ (P : Type) (reset : P → P) (initRef : P → SpellTracker.Imu → P)
       (step : P → SpellTracker.Imu → P × Pt) (s : SpellTracker.State P)
       (imus : List SpellTracker.Imu),
      (imus.foldl (fun st imu => (SpellTracker.update initRef step st imu).1)
        (SpellTracker.start reset s)).points.length ≤ SpellTracker.MAX_POINTS) ∧
    (∀ (P : Type) (initRef : P → SpellTracker.Imu → P)
       (step : P → SpellTracker.Imu → P × Pt) (s : SpellTracker.State P)
       (imu : SpellTracker.Imu),
      s.active = true → s.refSet = true →
      s.points.length = SpellTracker.MAX_POINTS →
      (SpellTracker.update initRef step s imu).1.points = s.points ∧
      (SpellTracker.update initRef step s imu).2 = some (step s.pose imu).2) := by
  constructor
  · intro P reset initRef step s imus
    exact foldl_update_le initRef step imus (SpellTracker.start reset s)
      (by simp [SpellTracker.start])
  · intro P initRef step s imu hact href hfull
    constructor <;> simp [SpellTracker.update, hact, href, hfull]

/-- Witness for C9: a state already holding 8192 points with a trivial pose
pipeline; the update leaves the buffer unchanged and still returns the
smoothed point. -/
theorem claim9_buffer_cap_witness :
    (SpellTracker.update (fun (p : Unit) _ => p) (fun p _ => (p, (0, 0)))
      ⟨true, true, (), List.replicate SpellTracker.MAX_POINTS ((0 : ℚ), (0 : ℚ))⟩
      ⟨0, 0, 0, 0, 0, 0⟩).1.points
        = List.replicate SpellTracker.MAX_POINTS ((0 : ℚ), (0 : ℚ)) ∧
    (SpellTracker.update (fun (p : Unit) _ => p) (fun p _ => (p, (0, 0)))
      ⟨true, true, (), List.replicate SpellTracker.MAX_POINTS ((0 : ℚ), (0 : ℚ))⟩
      ⟨0, 0, 0, 0, 0, 0⟩).2 = some (0, 0) := by
  have h := claim9_buffer_cap.2 Unit (fun p _ => p) (fun p _ => (p, (0, 0)))
    ⟨true, true, (), List.replicate SpellTracker.MAX_POINTS ((0 : ℚ), (0 : ℚ))⟩
    ⟨0, 0, 0, 0, 0, 0⟩ rfl rfl (by simp)
  exact ⟨h.1, h.2⟩

/-- Whenever the walk of `_resample` completes on a path of nonzero total
length, padding and truncation leave exactly `n = 50` points. -/
theorem resample_length (nrm : Pt → ℚ) (fuel : ℕ) (points out : List Pt)
    (hL : ShapeSpellDetector.path_length nrm points ≠ 0)
    (h : ShapeSpellDetector._resample nrm fuel points 50 = some out) :
    out.length = 50 := by
  simp only [ShapeSpellDetector._resample] at h
  rw [if_neg (by
    rw [div_eq_zero_iff]
    push_neg
    exact ⟨hL, by norm_num⟩)] at h
  rcases points with _ | ⟨p0, rest⟩
  · exact Option.noConfusion h
  · have h2 : Option.map (fun new_points =>
        List.take 50 (new_points ++ List.replicate (50 - new_points.length)
          ((p0 :: rest).getLastD p0)))
        (ShapeSpellDetector.resample_loop nrm
          (ShapeSpellDetector.path_length nrm (p0 :: rest) / (((50 : ℕ) : ℚ) - 1)) fuel
          (p0 :: rest) 0 [p0]) = some out := h
    cases hloop : ShapeSpellDetector.resample_loop nrm
        (ShapeSpellDetector.path_length nrm (p0 :: rest) / (((50 : ℕ) : ℚ) - 1)) fuel
        (p0 :: rest) 0 [p0] with
    | none => rw [hloop] at h2; exact Option.noConfusion h2
    | some raw =>
      rw [hloop, Option.map_some'] at h2
      rw [Option.some.injEq] at h2
      subst h2
      simp only [List.length_take, List.length_append, List.length_replicate]
      omega

theorem downsample_build_length (f : ℕ → Pt) : ((List.range 50).map f).length = 50 := by
  rw [List.length_map, List.length_range]

/-- A successful downsample-and-normalize always yields exactly 50 points. -/
theorem downsample_normalize_length (points out : List Pt)
    (h : SpellTracker.downsample_normalize points = .ok out) : out.length = 50 := by
  rcases points with _ | ⟨p, rest⟩
  · exact absurd h (by simp [SpellTracker.downsample_normalize])
  · have h3 := Except.ok.inj h
    rw [← h3]
    exact downsample_build_length _

/-- Claim C1, amended: the two preprocessing pipelines agree on the shape of
their output — each produces exactly 50 points (the template matcher whenever
its resampling walk completes on a path of nonzero arc length, the learned
pipeline whenever its buffer is nonempty) — but not on its contents; see the
counterexample. -/
theorem claim1_preprocess :
    (∀ (nrm : Pt → ℚ) (fuel : ℕ) (points out : List Pt),
      ShapeSpellDetector.path_length nrm points ≠ 0 →
      ShapeSpellDetector.shape_preprocess nrm fuel points = some out →
      out.length = 50) ∧
    (∀ points out : List Pt,
      SpellTracker.downsample_normalize points = .ok out →
      out.length = 50) := by
  constructor
  · intro nrm fuel points out hL h
    unfold ShapeSpellDetector.shape_preprocess at h
    cases hr : ShapeSpellDetector._resample nrm fuel points 50 with
    | none => rw [hr] at h; exact Option.noConfusion h
    | some mid =>
      rw [hr, Option.map_some'] at h
      rw [Option.some.injEq] at h
      subst h
      have hm : mid.length = 50 := resample_length nrm fuel points mid hL hr
      simpa [ShapeSpellDetector._normalize] using hm
  · exact downsample_normalize_length

set_option maxRecDepth 4000 in
/-- Counterexample to C1 as stated: on the axis-aligned three-point path
`(0,0) → (2,0) → (2,1)` (where `ratEuclid` is exactly the Euclidean norm used
by the source: every distance taken is rational) both pipelines complete, yet
their 50-point outputs differ — the template matcher places points at equal
arc-length intervals and normalises the y-axis by its own extent 1, while the
learned pipeline repeats the three input points by index stride and divides
both axes by the larger extent 2. -/
theorem claim1_counterexample :
    (ShapeSpellDetector.shape_preprocess ratEuclid 300 [((0 : ℚ), (0 : ℚ)), (2, 0), (2, 1)]).isSome
      = true ∧
    (SpellTracker.downsample_normalize [((0 : ℚ), (0 : ℚ)), (2, 0), (2, 1)]).isOk = true ∧
    ShapeSpellDetector.shape_preprocess ratEuclid 300 [((0 : ℚ), (0 : ℚ)), (2, 0), (2, 1)] ≠
      (SpellTracker.downsample_normalize [((0 : ℚ), (0 : ℚ)), (2, 0), (2, 1)]).toOption :=
  ⟨by decide, by decide, by decide⟩

set_option maxRecDepth 4000 in
/-- Witness for C1 (amended): both pipelines produce 50 points on the
concrete path. -/
theorem claim1_preprocess_witness :
    ((ShapeSpellDetector.shape_preprocess ratEuclid 300
        [((0 : ℚ), (0 : ℚ)), (2, 0), (2, 1)]).getD []).length = 50 ∧
    (((SpellTracker.downsample_normalize
        [((0 : ℚ), (0 : ℚ)), (2, 0), (2, 1)]).toOption.getD []).length = 50) := by
  constructor
  · cases hr : ShapeSpellDetector.shape_preprocess ratEuclid 300
        [((0 : ℚ), (0 : ℚ)), (2, 0), (2, 1)] with
    | none => exact absurd hr (by decide)
    | some out =>
      have hlen := claim1_preprocess.1 ratEuclid 300 _ out (by decide) hr
      rw [Option.getD_some]
      exact hlen
  · cases hd : SpellTracker.downsample_normalize [((0 : ℚ), (0 : ℚ)), (2, 0), (2, 1)] with
    | error e =>
      have hok : (SpellTracker.downsample_normalize
          [((0 : ℚ), (0 : ℚ)), (2, 0), (2, 1)]).isOk = true := by decide
      rw [hd] at hok
      exact Bool.noConfusion hok
    | ok out =>
      have hlen := claim1_preprocess.2 _ out hd
      rw [show (Except.ok out : Except String (List Pt)).toOption = some out from rfl,
        Option.getD_some]
      exact hlen

theorem foldl_add_nonneg (nrm : Pt → ℚ) (hnn : ∀ v, 0 ≤ nrm v) :
    ∀ (l : List (Pt × Pt)) (a : ℚ), 0 ≤ a →
      0 ≤ l.foldl (fun acc pq => acc + nrm (psub pq.2 pq.1)) a := by
  intro l
  induction l with
  | nil => exact fun a ha => ha
  | cons pq t ih => exact fun a ha => ih _ (add_nonneg ha (hnn _))

/-- A path length summed from a nonnegative norm is nonnegative. -/
theorem path_length_nonneg (nrm : Pt → ℚ) (hnn : ∀ v, 0 ≤ nrm v) (points : List Pt) :
    0 ≤ ShapeSpellDetector.path_length nrm points :=
  foldl_add_nonneg nrm hnn _ 0 le_rfl

/-- The arc-spacing invariant of the resampling walk: starting below the
interval `I` with a nonnegative, positively homogeneous norm, every gap the
walk records between consecutive emitted points equals exactly `I` (each
emission happens at accumulated distance `D` plus a partial segment of length
`I - D`). -/
theorem resample_gaps_const (nrm : Pt → ℚ) (I : ℚ)
    (hnn : ∀ v, 0 ≤ nrm v)
    (hom : ∀ (t : ℚ) (v : Pt), 0 ≤ t → nrm (pscale t v) = t * nrm v)
    (hI : 0 < I) :
    ∀ (fuel : ℕ) (src : List Pt) (D : ℚ) (accg out : List ℚ),
      0 ≤ D → D < I → (∀ g ∈ accg, g = I) →
      ShapeSpellDetector.resample_gaps nrm I fuel src D accg = some out →
      ∀ g ∈ out, g = I := by
  intro fuel
  induction fuel with
  | zero => exact fun src D accg out _ _ _ h => Option.noConfusion h
  | succ fuel ih =>
    intro src D accg out hD0 hDI hacc h
    rcases src with _ | ⟨pt1, _ | ⟨pt2, rest⟩⟩
    · have he : accg = out := Option.some.inj h
      subst he
      exact hacc
    · have he : accg = out := Option.some.inj h
      subst he
      exact hacc
    · have h2 : (if I ≤ D + nrm (psub pt2 pt1) then
          ShapeSpellDetector.resample_gaps nrm I fuel
            (((pt1.1 + (I - D) / nrm (psub pt2 pt1) * (pt2.1 - pt1.1),
               pt1.2 + (I - D) / nrm (psub pt2 pt1) * (pt2.2 - pt1.2)) : Pt) :: pt2 :: rest) 0
            (accg ++ [D + nrm (psub ((pt1.1 + (I - D) / nrm (psub pt2 pt1) * (pt2.1 - pt1.1),
               pt1.2 + (I - D) / nrm (psub pt2 pt1) * (pt2.2 - pt1.2)) : Pt) pt1)])
        else ShapeSpellDetector.resample_gaps nrm I fuel (pt2 :: rest)
            (D + nrm (psub pt2 pt1)) accg) = some out := h
      by_cases hbr : I ≤ D + nrm (psub pt2 pt1)
      · rw [if_pos hbr] at h2
        refine ih _ _ _ _ le_rfl hI ?_ h2
        intro g hg
        rcases List.mem_append.mp hg with hg1 | hg2
        · exact hacc g hg1
        · rw [List.mem_singleton] at hg2
          subst hg2
          have hd0 : 0 < nrm (psub pt2 pt1) := by
            rcases lt_or_eq_of_le (hnn (psub pt2 pt1)) with h' | h'
            · exact h'
            · exfalso
              rw [← h'] at hbr
              linarith
          have hq : (psub ((pt1.1 + (I - D) / nrm (psub pt2 pt1) * (pt2.1 - pt1.1),
                pt1.2 + (I - D) / nrm (psub pt2 pt1) * (pt2.2 - pt1.2)) : Pt) pt1)
              = pscale ((I - D) / nrm (psub pt2 pt1)) (psub pt2 pt1) := by
            simp only [psub, pscale, Prod.mk.injEq]
            constructor <;> ring
          rw [hq, hom _ _ (div_nonneg (by linarith) (le_of_lt hd0)),
            div_mul_cancel₀ _ (ne_of_gt hd0)]
          ring
      · rw [if_neg hbr] at h2
        exact ih _ _ _ _ (add_nonneg hD0 (hnn _)) (not_le.mp hbr) hacc h2


/-- Claim C4, amended: for every path with at least 2 points and *nonzero
total arc length* whose resampling walk completes, `_resample` returns exactly
50 points; the arc-length between consecutive emitted points is exactly the
interval `L / 49` (constant — exact in rational arithmetic, up to
floating-point tolerance in the source); and every output slot past the
emitted points is padding with the final input point.  The norm is
quantified over all nonnegative, positively homogeneous functions, which
includes the Euclidean norm of the source. -/
theorem claim4_resample (nrm : Pt → ℚ) (fuel : ℕ) (points out raw : List Pt) (gaps : List ℚ)
    (hnn : ∀ v, 0 ≤ nrm v)
    (hom : ∀ (t : ℚ) (v : Pt), 0 ≤ t → nrm (pscale t v) = t * nrm v)
    (hp2 : 2 ≤ points.length)
    (hL : ShapeSpellDetector.path_length nrm points ≠ 0)
    (hres : ShapeSpellDetector._resample nrm fuel points 50 = some out)
    (hgaps : ShapeSpellDetector.resample_gaps nrm
      (ShapeSpellDetector.path_length nrm points / (((50 : ℕ) : ℚ) - 1)) fuel points 0 []
      = some gaps)
    (hloop : ShapeSpellDetector.resample_loop nrm
      (ShapeSpellDetector.path_length nrm points / (((50 : ℕ) : ℚ) - 1)) fuel points 0
      [points.headD (0, 0)] = some raw) :
    out.length = 50 ∧
    (∀ g ∈ gaps, g = ShapeSpellDetector.path_length nrm points / (((50 : ℕ) : ℚ) - 1)) ∧
    (∀ i, raw.length ≤ i → i < 50 → out[i]? = some (points.getLastD (0, 0))) := by
  have hI : 0 < ShapeSpellDetector.path_length nrm points / (((50 : ℕ) : ℚ) - 1) := by
    apply div_pos
    · exact lt_of_le_of_ne (path_length_nonneg nrm hnn points) (Ne.symm hL)
    · norm_num
  refine ⟨resample_length nrm fuel points out hL hres, ?_, ?_⟩
  · exact resample_gaps_const nrm _ hnn hom hI fuel points 0 [] gaps le_rfl hI
      (by intro g hg; cases hg) hgaps
  · intro i hi1 hi2
    simp only [ShapeSpellDetector._resample] at hres
    rw [if_neg (by
      rw [div_eq_zero_iff]
      push_neg
      exact ⟨hL, by norm_num⟩)] at hres
    rcases points with _ | ⟨p0, rest⟩
    · simp at hp2
    · have h3 : Option.map (fun new_points =>
          List.take 50 (new_points ++ List.replicate (50 - new_points.length)
            ((p0 :: rest).getLastD ((p0 :: rest).headD (0, 0)))))
          (ShapeSpellDetector.resample_loop nrm
            (ShapeSpellDetector.path_length nrm (p0 :: rest) / (((50 : ℕ) : ℚ) - 1)) fuel
            (p0 :: rest) 0 [(p0 :: rest).headD (0, 0)]) = some out := hres
      rw [hloop, Option.map_some'] at h3
      have h4 := Option.some.inj h3
      subst h4
      rw [List.getElem?_take, if_pos hi2, List.getElem?_append_right hi1,
        List.getElem?_replicate, if_pos (by omega)]
      simp only [List.getLastD_cons]


set_option maxRecDepth 4000 in
/-- Counterexample to C4 as stated: a 2-point path of zero total length makes
`I == 0`, and `_resample` returns the input unchanged — 2 points, not 50
(`ratEuclid` is exactly the Euclidean norm here: both distances are 0). -/
theorem claim4_counterexample :
    ([((0 : ℚ), (0 : ℚ)), (0, 0)] : List Pt).length = 2 ∧
    ShapeSpellDetector._resample ratEuclid 300 [((0 : ℚ), (0 : ℚ)), (0, 0)] 50
      = some [((0 : ℚ), (0 : ℚ)), (0, 0)] ∧
    (ShapeSpellDetector._resample ratEuclid 300 [((0 : ℚ), (0 : ℚ)), (0, 0)] 50).map
      List.length = some 2 ∧
    (ShapeSpellDetector._resample ratEuclid 300 [((0 : ℚ), (0 : ℚ)), (0, 0)] 50).map
      List.length ≠ some 50 :=
  ⟨rfl, by decide, by decide, by decide⟩

set_option maxRecDepth 8000 in
/-- Witness for C4 (amended) on the unit segment under the taxicab norm
(which satisfies the quantified norm hypotheses outright and agrees with the
Euclidean norm on this axis-aligned path): the walk emits 49 points at gaps
of exactly `1/49` and the output has exactly 50 points. -/
theorem claim4_resample_witness :
    (((ShapeSpellDetector._resample l1norm 300 [((0 : ℚ), (0 : ℚ)), (1, 0)] 50).getD []).length
      = 50) ∧
    (∀ g ∈ List.replicate 49 ((1 : ℚ) / 49),
      g = ShapeSpellDetector.path_length l1norm [((0 : ℚ), (0 : ℚ)), (1, 0)]
        / (((50 : ℕ) : ℚ) - 1)) := by
  have hnn : ∀ v : Pt, 0 ≤ l1norm v :=
    fun v => add_nonneg (abs_nonneg v.1) (abs_nonneg v.2)
  have hom : ∀ (t : ℚ) (v : Pt), 0 ≤ t → l1norm (pscale t v) = t * l1norm v := by
    intro t v ht
    simp only [l1norm, pscale, abs_mul, abs_of_nonneg ht]
    ring
  cases hr : ShapeSpellDetector._resample l1norm 300 [((0 : ℚ), (0 : ℚ)), (1, 0)] 50 with
  | none => exact absurd hr (by decide)
  | some out =>
    have h := claim4_resample l1norm 300 [((0 : ℚ), (0 : ℚ)), (1, 0)] out
      ((List.range 50).map (fun k => (((k : ℕ) : ℚ) / 49, (0 : ℚ))))
      (List.replicate 49 ((1 : ℚ) / 49)) hnn hom (by decide) (by decide) hr
      (by decide) (by decide)
    refine ⟨?_, h.2.1⟩
    rw [Option.getD_some]
    exact h.1

end MCW
